import Mathlib

/-!
Verification of the `generichttp` package (handler.go): a generic adapter that
turns typed handlers `func(http.ResponseWriter, Request[R]) (*Response[W], error)`
into `http.Handler`s, decoding the JSON request body into the request envelope
and encoding the response payload (or a rendered error) back as JSON.

The embedding models the `http.ResponseWriter` as a trace of write events
(header sets, status-line writes, body writes), Go pointers as `Option`,
Go `error` values with their optional `HTTPCode()` / `HTTPError()` capabilities
as a record of optional fields, and `encoding/json` values as an inductive
`JsonValue` type (a body write records the JSON value handed to
`json.Encoder.Encode`).  Byte streams are modelled as `List Char`
(all inputs of interest are ASCII, one char per byte).
-/

namespace generichttp

/-- JSON values as marshalled/unmarshalled by `encoding/json`. -/
inductive JsonValue : Type where
  | jnull : JsonValue
  | jbool : Bool → JsonValue
  | jnum : Int → JsonValue
  | jstr : String → JsonValue
  | jarr : List JsonValue → JsonValue
  | jobj : List (String × JsonValue) → JsonValue

/-- One effect on the `http.ResponseWriter`: `w.Header().Set`, `w.WriteHeader`,
or a body write performed by `json.Encoder.Encode` (recorded as the JSON value
that was encoded). -/
inductive WriteEvent where
  | setHeader (key value : String)
  | writeHeader (code : Int)
  | writeBody (v : JsonValue)

/-- The status codes from `net/http` used by handler.go. -/
def StatusOK : Int := 200

def StatusBadRequest : Int := 400

def StatusInternalServerError : Int := 500

/-- `Request[T]` wraps data on the request side; the decoded payload `Data *T`
is `none` when the pointer is nil.  (The embedded `*http.Request` carries no
information the claims need and is dropped.) -/
structure Request (T : Type) where
  Data : Option T

/-- `NewRequest` (handler.go:19-25): decode the body read through
`io.LimitReader(r.Body, 1<<20)` into `req.Data`, ignoring any decode error.
`dec` stands for `encoding/json` unmarshalling at type `*T`: it yields `none`
exactly when decoding fails or leaves the pointer nil. -/
def NewRequest {T : Type} (dec : List Char → Option T) (body : List Char) : Request T :=
  { Data := dec (body.take (1 <<< 20)) }

/-- `Response[T]` wraps data on the response side.  Struct tags in the source:
`StatusCode int json:"-"` and `Data *T json:"data,omitempty"`. -/
structure Response (T : Type) where
  StatusCode : Int
  Data : Option T

/-- `NewResponseWithCode` (handler.go:41-47). -/
def NewResponseWithCode {T : Type} (code : Int) (data : Option T) : Response T :=
  { StatusCode := code, Data := data }

/-- `NewResponse` (handler.go:35-37): status code 200. -/
def NewResponse {T : Type} (data : Option T) : Response T :=
  NewResponseWithCode StatusOK data

/-- What `encoding/json` would produce if a `Response[T]` value itself were
marshalled, per its struct tags: `StatusCode` is skipped (`json:"-"`) and
`Data` becomes field `"data"`, omitted when nil (`json:"data,omitempty"`).
Note the adapter never does this: `JSON` passes `resp.Data` to the encoder. -/
def Response.marshal {T : Type} (toJ : T → JsonValue) (r : Response T) : JsonValue :=
  match r.Data with
  | none => JsonValue.jobj []
  | some d => JsonValue.jobj [("data", toJ d)]

/-- A Go `error` value as seen by `WriteJSONError`: its `Error()` string and
its two optional capabilities, `HTTPCode() int` and `HTTPError() string`
(`none` when the dynamic type does not implement the interface). -/
structure GoError where
  errMsg : String
  httpCode : Option Int
  httpError : Option String
deriving DecidableEq

/-- `WriteJSONCode` (handler.go:77-84): set Content-Type, default a zero code
to 200, write the status line, then encode `data` as the body. -/
def WriteJSONCode (w : List WriteEvent) (code : Int) (data : JsonValue) : List WriteEvent :=
  w ++ [WriteEvent.setHeader "Content-Type" "application/json",
        WriteEvent.writeHeader (if code = 0 then StatusOK else code),
        WriteEvent.writeBody data]

/-- `WriteJSON` (handler.go:71-73). -/
def WriteJSON (w : List WriteEvent) (data : JsonValue) : List WriteEvent :=
  WriteJSONCode w StatusOK data

/-- `WriteJSONError` (handler.go:91-107): status from `HTTPCode()` when the
error has it, else 500; message from `HTTPError()` when the error has it,
else "Internal server error"; body is the struct with the single
`json:"message"` field. -/
def WriteJSONError (w : List WriteEvent) (err : GoError) : List WriteEvent :=
  let code : Int :=
    match err.httpCode with
    | some c => c
    | none => StatusInternalServerError
  let message : String :=
    match err.httpError with
    | some s => s
    | none => "Internal server error"
  w ++ [WriteEvent.setHeader "Content-Type" "application/json",
        WriteEvent.writeHeader code,
        WriteEvent.writeBody (JsonValue.jobj [("message", JsonValue.jstr message)])]

/-- `BadRequestError` (handler.go:110-112). -/
structure BadRequestError where
  Message : String
deriving DecidableEq

/-- `BadRequestError.HTTPCode` (handler.go:118). -/
def BadRequestError.HTTPCode (_ : BadRequestError) : Int := StatusBadRequest

/-- `BadRequestError.HTTPError` (handler.go:121-126). -/
def BadRequestError.HTTPError (e : BadRequestError) : String :=
  if e.Message ≠ "" then e.Message else "Bad request"

/-- View a `BadRequestError` as a Go `error` value: it implements `Error()`
(returning `HTTPError()`), `HTTPCode()` and `HTTPError()`. -/
def BadRequestError.toGoError (e : BadRequestError) : GoError :=
  { errMsg := e.HTTPError, httpCode := some e.HTTPCode, httpError := some e.HTTPError }

/-- `Handler[R, W]` (handler.go:10): a typed handler receives the response
writer (its current trace) and the request envelope, and returns the trace
after its own writes together with `(*Response[W], error)`; both results are
`Option` since either Go pointer/interface may be nil. -/
def Handler (R W : Type) : Type :=
  List WriteEvent → Request R → List WriteEvent × Option (Response W) × Option GoError

/-- Result of one invocation of the adapter-produced `http.HandlerFunc`:
either it returns normally with the final writer trace, or it faults
(a nil-pointer dereference panic) with the trace at the point of the fault. -/
inductive Outcome where
  | ok (w : List WriteEvent)
  | fault (w : List WriteEvent)

/-- The tail of `JSON`'s closure after the handler returned (handler.go:59-67):
render a non-nil error, else read `resp.Data` — which dereferences `resp` and
faults when the handler returned a nil response with a nil error — and encode
a non-nil payload with the envelope's status code, doing nothing when the
payload is nil. -/
def handleResult {W : Type} (toJ : W → JsonValue)
    (w1 : List WriteEvent) (resp : Option (Response W)) (err : Option GoError) : Outcome :=
  match err with
  | some e => Outcome.ok (WriteJSONError w1 e)
  | none =>
    match resp with
    | none => Outcome.fault w1
    | some r =>
      match r.Data with
      | some d => Outcome.ok (WriteJSONCode w1 r.StatusCode (toJ d))
      | none => Outcome.ok w1

/-- `JSON` (handler.go:56-68): the adapter.  `dec` models `encoding/json`
unmarshalling at type `*R` and `toJ` models marshalling of `W`; the source
fixes both to `encoding/json` via generics. -/
def JSON {R W : Type} (dec : List Char → Option R) (toJ : W → JsonValue)
    (h : Handler R W) (w : List WriteEvent) (body : List Char) : Outcome :=
  let req := NewRequest dec body
  match h w req with
  | (w1, resp, err) => handleResult toJ w1 resp err

/-- Status-line writes occurring in a writer trace, in order. -/
def statusWrites (w : List WriteEvent) : List Int :=
  w.filterMap fun e =>
    match e with
    | WriteEvent.writeHeader c => some c
    | _ => none

/-- Body writes occurring in a writer trace, in order. -/
def bodyWrites (w : List WriteEvent) : List JsonValue :=
  w.filterMap fun e =>
    match e with
    | WriteEvent.writeBody v => some v
    | _ => none

/-- Header sets occurring in a writer trace, in order. -/
def headerSets (w : List WriteEvent) : List (String × String) :=
  w.filterMap fun e =>
    match e with
    | WriteEvent.setHeader k v => some (k, v)
    | _ => none

/-! ### A model of `encoding/json` decoding

`NewRequest` calls `json.NewDecoder(...).Decode(&req.Data)`.  To settle the
end-to-end claims about the demo `add` endpoint on concrete bodies we model
the decoder: a recursive-descent parser from characters to `JsonValue`
(covering the grammar fragment exercised by the package: whitespace, `null`,
booleans, integers, strings with simple escapes, arrays, objects), followed
by unmarshalling of the `JsonValue` into the target struct with Go semantics
(missing field keeps the zero value, `null` is a no-op, wrong type errors,
later duplicate keys win).  `json.Decoder.Decode` reads exactly one value and
ignores what follows; empty or malformed input is an error. -/

/-- JSON insignificant whitespace. -/
def isJsonWs : Char → Bool
  | ' ' => true
  | '\t' => true
  | '\n' => true
  | '\r' => true
  | _ => false

/-- Drop leading JSON whitespace. -/
def skipWs : List Char → List Char
  | [] => []
  | c :: rest => if isJsonWs c then skipWs rest else c :: rest

/-- Consume an expected literal, returning the remainder. -/
def dropLit : List Char → List Char → Option (List Char)
  | [], s => some s
  | _ :: _, [] => none
  | c :: cs, d :: ds => if c = d then dropLit cs ds else none

/-- Split off a leading run of decimal digits. -/
def takeDigits : List Char → List Char × List Char
  | [] => ([], [])
  | c :: rest =>
    if c.isDigit then
      match takeDigits rest with
      | (ds, r) => (c :: ds, r)
    else ([], c :: rest)

/-- Value of one decimal digit character. -/
def digitVal (c : Char) : Nat :=
  c.toNat - 48

/-- Value of a run of decimal digits. -/
def digitsToNat (ds : List Char) : Nat :=
  ds.foldl (fun acc c => 10 * acc + digitVal c) 0

/-- Single-character JSON string escapes (`\uXXXX` is not modelled; no input
of this package uses it). -/
def escChar (e : Char) : Option Char :=
  if e = '"' || e = '\\' || e = '/' then some e
  else if e = 'n' then some '\n'
  else if e = 't' then some '\t'
  else if e = 'r' then some '\r'
  else if e = 'b' then some (Char.ofNat 8)
  else if e = 'f' then some (Char.ofNat 12)
  else none

/-- Parse the characters of a JSON string after the opening quote, up to and
including the closing quote. -/
def parseStringChars : List Char → Option (List Char × List Char)
  | [] => none
  | '"' :: rest => some ([], rest)
  | '\\' :: [] => none
  | '\\' :: e :: rest =>
    match escChar e with
    | some d => (parseStringChars rest).map fun p => (d :: p.1, p.2)
    | none => none
  | c :: rest => (parseStringChars rest).map fun p => (c :: p.1, p.2)

mutual

/-- Parse one JSON value (fuel-indexed; the top-level call supplies enough). -/
def parseValue : Nat → List Char → Option (JsonValue × List Char)
  | 0, _ => none
  | fuel + 1, s =>
    match skipWs s with
    | [] => none
    | '\x7b' :: rest =>
      match skipWs rest with
      | '\x7d' :: r2 => some (JsonValue.jobj [], r2)
      | r2 => (parseMembers fuel r2).map fun p => (JsonValue.jobj p.1, p.2)
    | '[' :: rest =>
      match skipWs rest with
      | ']' :: r2 => some (JsonValue.jarr [], r2)
      | r2 => (parseElems fuel r2).map fun p => (JsonValue.jarr p.1, p.2)
    | '"' :: rest =>
      (parseStringChars rest).map fun p => (JsonValue.jstr (String.mk p.1), p.2)
    | 'n' :: rest => (dropLit ['u', 'l', 'l'] rest).map fun r => (JsonValue.jnull, r)
    | 't' :: rest => (dropLit ['r', 'u', 'e'] rest).map fun r => (JsonValue.jbool true, r)
    | 'f' :: rest => (dropLit ['a', 'l', 's', 'e'] rest).map fun r => (JsonValue.jbool false, r)
    | '-' :: rest =>
      match takeDigits rest with
      | ([], _) => none
      | (ds, r) => some (JsonValue.jnum (-(digitsToNat ds : Int)), r)
    | c :: rest =>
      if c.isDigit then
        match takeDigits (c :: rest) with
        | (ds, r) => some (JsonValue.jnum (digitsToNat ds : Int), r)
      else none

/-- Parse the elements of a non-empty JSON array up to `]`. -/
def parseElems : Nat → List Char → Option (List JsonValue × List Char)
  | 0, _ => none
  | fuel + 1, s =>
    match parseValue fuel s with
    | none => none
    | some (v, r) =>
      match skipWs r with
      | ',' :: r2 => (parseElems fuel r2).map fun p => (v :: p.1, p.2)
      | ']' :: r2 => some ([v], r2)
      | _ => none

/-- Parse the members of a non-empty JSON object up to the closing brace. -/
def parseMembers : Nat → List Char → Option (List (String × JsonValue) × List Char)
  | 0, _ => none
  | fuel + 1, s =>
    match skipWs s with
    | '"' :: rest =>
      match parseStringChars rest with
      | none => none
      | some (kcs, r) =>
        match skipWs r with
        | ':' :: r2 =>
          match parseValue fuel (skipWs r2) with
          | none => none
          | some (v, r3) =>
            match skipWs r3 with
            | ',' :: r4 =>
              (parseMembers fuel r4).map fun p => ((String.mk kcs, v) :: p.1, p.2)
            | '\x7d' :: r4 => some ([(String.mk kcs, v)], r4)
            | _ => none
        | _ => none
    | _ => none

end

/-- Read one JSON value from the input, as `json.Decoder.Decode` does;
trailing bytes are ignored. -/
def parseJson (body : List Char) : Option JsonValue :=
  (parseValue (body.length + 1) body).map Prod.fst

/-- Go unmarshalling of an object: the last binding of a duplicated key wins. -/
def lookupLast (k : String) : List (String × JsonValue) → Option JsonValue
  | [] => none
  | (k2, v) :: rest =>
    match lookupLast k rest with
    | some v2 => some v2
    | none => if k2 = k then some v else none

/-- Go unmarshalling of one `int` struct field: a missing field keeps the zero
value, `null` is a no-op (also leaving zero), a number is taken, and any other
JSON type is an unmarshalling error. -/
def intField : Option JsonValue → Option Int
  | none => some 0
  | some (JsonValue.jnum n) => some n
  | some JsonValue.jnull => some 0
  | some _ => none

/-! ### The demo `add` endpoint (the `main` package of the repository) -/

/-- `addRequest` (demo): fields `A int json:"a"` and `B int json:"b"`. -/
structure addRequest where
  A : Int
  B : Int
deriving DecidableEq

/-- `addResponse` (demo): field `Result int json:"result"`. -/
structure addResponse where
  Result : Int
deriving DecidableEq

/-- Marshalling of `addResponse` per its struct tag. -/
def addResponse.toJson (r : addResponse) : JsonValue :=
  JsonValue.jobj [("result", JsonValue.jnum r.Result)]

/-- Unmarshalling of a JSON value into `addRequest` (Go semantics). -/
def addRequest.fromJson : JsonValue → Option addRequest
  | JsonValue.jobj fields =>
    match intField (lookupLast "a" fields), intField (lookupLast "b" fields) with
    | some a, some b => some { A := a, B := b }
    | _, _ => none
  | _ => none

/-- `json.Decoder.Decode(&req.Data)` at type `*addRequest`: parse one value;
`null` leaves the pointer nil, an object unmarshals into a fresh struct, any
other value (or a parse failure) is an error — which `NewRequest` swallows,
so all of those leave `Data` nil. -/
def decodeAdd (body : List Char) : Option addRequest :=
  match parseJson body with
  | some v => addRequest.fromJson v
  | none => none

/-- The demo `add` handler (demo source, `addHandler`): reject a nil payload
with `BadRequestError{Message: "Missing request data"}`, otherwise respond
with `NewResponse(&addResponse{Result: A + B})`. -/
def addHandler : Handler addRequest addResponse := fun w req =>
  match req.Data with
  | none => (w, none, some (BadRequestError.toGoError { Message := "Missing request data" }))
  | some d => (w, some (NewResponse (some { Result := d.A + d.B })), none)

/-- The `/add` endpoint as installed by the demo: `generichttp.JSON` applied
to the `add` handler, with `encoding/json` instantiated at its types. -/
def addEndpoint (w : List WriteEvent) (body : List Char) : Outcome :=
  JSON decodeAdd addResponse.toJson addHandler w body

/-! ## Claims -/

/-- C1, counterexample.  The claim says the adapter's body is the JSON object
`JsonValue.jobj [("data", payload)]`; in particular that posting the add demo
body yields body `obj [("data", obj [("result", 3)])]`.  In fact the adapter
passes `resp.Data` — not the `Response` struct — to the encoder
(handler.go:65), so the emitted body is the bare payload
`obj [("result", 3)]`, which is not the data-wrapped object. -/
theorem c1_counterexample :
    addEndpoint [] ("\x7b\"a\":1,\"b\":2\x7d".toList) =
      Outcome.ok [WriteEvent.setHeader "Content-Type" "application/json",
        WriteEvent.writeHeader 200,
        WriteEvent.writeBody (JsonValue.jobj [("result", JsonValue.jnum 3)])] ∧
    JsonValue.jobj [("result", JsonValue.jnum 3)] ≠
      JsonValue.jobj [("data", JsonValue.jobj [("result", JsonValue.jnum 3)])] :=
  ⟨rfl, by simp⟩

/-- C1 (amended): for every handler returning a response envelope with a
non-nil payload, a non-zero status code C and a nil error, the adapter emits
content-type application/json, status line C, and as body the JSON-encoded
payload itself (not wrapped in a `data` field); posting the add demo body
yields status 200 and body `obj [("result", 3)]`. -/
theorem c1_success_output {R W : Type} (dec : List Char → Option R)
    (toJ : W → JsonValue) (h : Handler R W) (w : List WriteEvent) (body : List Char)
    (w1 : List WriteEvent) (r : Response W) (d : W)
    (hh : h w (NewRequest dec body) = (w1, some r, none))
    (hd : r.Data = some d) (hc : r.StatusCode ≠ 0) :
    JSON dec toJ h w body =
      Outcome.ok (w1 ++ [WriteEvent.setHeader "Content-Type" "application/json",
        WriteEvent.writeHeader r.StatusCode,
        WriteEvent.writeBody (toJ d)]) := by
  simp [JSON, hh, handleResult, hd, WriteJSONCode, hc]

/-- C1 witness: the amended claim applied to the demo add endpoint on body
`\x7b"a":1,"b":2\x7d`. -/
theorem c1_witness :
    JSON decodeAdd addResponse.toJson addHandler [] ("\x7b\"a\":1,\"b\":2\x7d".toList) =
      Outcome.ok [WriteEvent.setHeader "Content-Type" "application/json",
        WriteEvent.writeHeader 200,
        WriteEvent.writeBody (JsonValue.jobj [("result", JsonValue.jnum 3)])] :=
  c1_success_output decodeAdd addResponse.toJson addHandler []
    ("\x7b\"a\":1,\"b\":2\x7d".toList) [] (NewResponse (some { Result := 3 }))
    { Result := 3 } rfl rfl (by decide)

/-- C2: for every error value, `WriteJSONError` writes the status code
`HTTPCode()` when the error exposes that capability and 500 otherwise, and
writes as body the JSON object with a single `message` field holding
`HTTPError()` when exposed and "Internal server error" otherwise (with the
content-type set to application/json). -/
theorem c2_error_rendering (w : List WriteEvent) (err : GoError) :
    statusWrites (WriteJSONError w err) =
      statusWrites w ++ [err.httpCode.getD StatusInternalServerError] ∧
    bodyWrites (WriteJSONError w err) =
      bodyWrites w ++ [JsonValue.jobj [("message",
        JsonValue.jstr (err.httpError.getD "Internal server error"))]] ∧
    headerSets (WriteJSONError w err) =
      headerSets w ++ [("Content-Type", "application/json")] := by
  obtain ⟨m, hc, he⟩ := err
  cases hc <;> cases he <;>
    simp [WriteJSONError, statusWrites, bodyWrites, headerSets]

/-- C3: when the body does not decode (the decoder yields nothing on the
bounded read), the request envelope's payload is `none`, no error is
surfaced, and the adapter still hands control to the typed handler with
exactly that envelope. -/
theorem c3_silent_decode_failure {R W : Type} (dec : List Char → Option R)
    (toJ : W → JsonValue) (h : Handler R W) (w : List WriteEvent) (body : List Char)
    (hdec : dec (body.take (1 <<< 20)) = none) :
    NewRequest dec body = { Data := none } ∧
    JSON dec toJ h w body =
      handleResult toJ (h w { Data := none }).1 (h w { Data := none }).2.1
        (h w { Data := none }).2.2 := by
  have hreq : NewRequest dec body = { Data := none } := by
    simpa [NewRequest] using hdec
  refine ⟨hreq, ?_⟩
  rcases hx : h w { Data := none } with ⟨w1, resp, err⟩
  simp [JSON, hreq, hx]

/-- C3 witness: the truncated body `\x7b` is malformed, the add decoder
rejects it, and the add handler still runs on the empty envelope. -/
theorem c3_witness :
    decodeAdd (("\x7b".toList).take (1 <<< 20)) = none ∧
    (NewRequest decodeAdd ("\x7b".toList) = { Data := none } ∧
      JSON decodeAdd addResponse.toJson addHandler [] ("\x7b".toList) =
        handleResult addResponse.toJson
          (addHandler [] { Data := none }).1
          (addHandler [] { Data := none }).2.1
          (addHandler [] { Data := none }).2.2) :=
  ⟨rfl, c3_silent_decode_failure decodeAdd addResponse.toJson addHandler []
    ("\x7b".toList) rfl⟩

/-- C4, counterexample.  The claim says the adapter runs to completion on
every handler result permitted by the contract (response
pointer-or-absent, error).  But for a handler returning a nil response
pointer together with a nil error, line 64 (`resp.Data`) dereferences the
nil pointer: the adapter faults instead of completing. -/
theorem c4_counterexample :
    JSON (fun _ => (none : Option addRequest)) addResponse.toJson
      (fun w _ => (w, none, none)) [] [] = Outcome.fault [] := rfl

/-- C4 (amended): whenever the handler returns a non-nil error or a non-nil
response envelope, the adapter runs to completion, resolving any error to a
status code and JSON message; only the (nil response, nil error) combination
faults on the nil dereference. -/
theorem c4_no_fault_on_error_or_response {R W : Type} (dec : List Char → Option R)
    (toJ : W → JsonValue) (h : Handler R W) (w : List WriteEvent) (body : List Char)
    (hok : (h w (NewRequest dec body)).2.2 ≠ none ∨
      (h w (NewRequest dec body)).2.1 ≠ none) :
    ∃ ws, JSON dec toJ h w body = Outcome.ok ws := by
  rcases hx : h w (NewRequest dec body) with ⟨w1, resp, err⟩
  rw [hx] at hok
  cases err with
  | some e => exact ⟨WriteJSONError w1 e, by simp [JSON, hx, handleResult]⟩
  | none =>
    cases resp with
    | none => simp at hok
    | some r =>
      cases hr : r.Data with
      | some d =>
        exact ⟨WriteJSONCode w1 r.StatusCode (toJ d), by simp [JSON, hx, handleResult, hr]⟩
      | none => exact ⟨w1, by simp [JSON, hx, handleResult, hr]⟩

/-- C4 witness: the add handler on an absent body returns a non-nil error,
and the adapter completes. -/
theorem c4_witness :
    ((addHandler [] (NewRequest decodeAdd [])).2.2 ≠ none ∨
      (addHandler [] (NewRequest decodeAdd [])).2.1 ≠ none) ∧
    ∃ ws, JSON decodeAdd addResponse.toJson addHandler [] [] = Outcome.ok ws :=
  ⟨Or.inl (by decide),
    c4_no_fault_on_error_or_response decodeAdd addResponse.toJson addHandler [] []
      (Or.inl (by decide))⟩

/-- C5: `BadRequestError` always reports status 400, and rendering it writes
status 400 with body `obj [("message", m)]` where the message is the supplied
one when non-empty and "Bad request" otherwise. -/
theorem c5_bad_request_error (m : String) (w : List WriteEvent) :
    BadRequestError.HTTPCode { Message := m } = 400 ∧
    statusWrites (WriteJSONError w (BadRequestError.toGoError { Message := m })) =
      statusWrites w ++ [400] ∧
    bodyWrites (WriteJSONError w (BadRequestError.toGoError { Message := m })) =
      bodyWrites w ++ [JsonValue.jobj [("message",
        JsonValue.jstr (if m = "" then "Bad request" else m))]] := by
  refine ⟨rfl, ?_, ?_⟩ <;> by_cases hm : m = "" <;>
    simp [WriteJSONError, BadRequestError.toGoError, BadRequestError.HTTPError,
      BadRequestError.HTTPCode, statusWrites, bodyWrites, StatusBadRequest, hm]

/-- C6: when the body decodes to a value `v` of the request type (on the
bounded read), the envelope's payload is populated with exactly `v`, and the
typed handler is invoked with that populated envelope. -/
theorem c6_valid_body_populates {R W : Type} (dec : List Char → Option R)
    (toJ : W → JsonValue) (h : Handler R W) (w : List WriteEvent) (body : List Char)
    (v : R) (hdec : dec (body.take (1 <<< 20)) = some v) :
    NewRequest dec body = { Data := some v } ∧
    JSON dec toJ h w body =
      handleResult toJ (h w { Data := some v }).1 (h w { Data := some v }).2.1
        (h w { Data := some v }).2.2 := by
  have hreq : NewRequest dec body = { Data := some v } := by
    simpa [NewRequest] using hdec
  refine ⟨hreq, ?_⟩
  rcases hx : h w { Data := some v } with ⟨w1, resp, err⟩
  simp [JSON, hreq, hx]

/-- C6 witness: the valid body `\x7b"a":1,"b":2\x7d` decodes to
`addRequest 1 2`, which is what the add handler receives. -/
theorem c6_witness :
    decodeAdd (("\x7b\"a\":1,\"b\":2\x7d".toList).take (1 <<< 20)) =
      some { A := 1, B := 2 } ∧
    (NewRequest decodeAdd ("\x7b\"a\":1,\"b\":2\x7d".toList) =
        { Data := some { A := 1, B := 2 } } ∧
      JSON decodeAdd addResponse.toJson addHandler [] ("\x7b\"a\":1,\"b\":2\x7d".toList) =
        handleResult addResponse.toJson
          (addHandler [] { Data := some { A := 1, B := 2 } }).1
          (addHandler [] { Data := some { A := 1, B := 2 } }).2.1
          (addHandler [] { Data := some { A := 1, B := 2 } }).2.2) :=
  ⟨rfl, c6_valid_body_populates decodeAdd addResponse.toJson addHandler []
    ("\x7b\"a\":1,\"b\":2\x7d".toList) { A := 1, B := 2 } rfl⟩

/-- C7: when the handler returns a nil error and an envelope with a nil
payload, the adapter performs no header set, no status-line write and no
body write: the final trace is exactly the trace the handler left. -/
theorem c7_empty_payload_no_writes {R W : Type} (dec : List Char → Option R)
    (toJ : W → JsonValue) (h : Handler R W) (w : List WriteEvent) (body : List Char)
    (w1 : List WriteEvent) (r : Response W)
    (hh : h w (NewRequest dec body) = (w1, some r, none))
    (hd : r.Data = none) :
    JSON dec toJ h w body = Outcome.ok w1 := by
  simp [JSON, hh, handleResult, hd]

/-- C7 witness: a handler that writes one event itself and returns an
empty-payload envelope; the adapter adds nothing. -/
theorem c7_witness :
    JSON decodeAdd addResponse.toJson
      (fun w _ => (w ++ [WriteEvent.writeHeader 204],
        some (NewResponseWithCode 204 none), none)) [] [] =
      Outcome.ok [WriteEvent.writeHeader 204] :=
  c7_empty_payload_no_writes decodeAdd addResponse.toJson
    (fun w _ => (w ++ [WriteEvent.writeHeader 204],
      some (NewResponseWithCode 204 none), none)) [] []
    [WriteEvent.writeHeader 204] (NewResponseWithCode 204 none) rfl rfl

/-- C8: on a successful dispatch with a non-nil payload, the status line
written is 200 when the envelope's code is the zero value and the code
verbatim otherwise (no validation). -/
theorem c8_status_code_passthrough {R W : Type} (dec : List Char → Option R)
    (toJ : W → JsonValue) (h : Handler R W) (w : List WriteEvent) (body : List Char)
    (w1 : List WriteEvent) (r : Response W) (d : W)
    (hh : h w (NewRequest dec body) = (w1, some r, none))
    (hd : r.Data = some d) :
    JSON dec toJ h w body = Outcome.ok (WriteJSONCode w1 r.StatusCode (toJ d)) ∧
    statusWrites (WriteJSONCode w1 r.StatusCode (toJ d)) =
      statusWrites w1 ++ [if r.StatusCode = 0 then 200 else r.StatusCode] := by
  constructor
  · simp [JSON, hh, handleResult, hd]
  · simp [WriteJSONCode, statusWrites, StatusOK]

/-- C8 witness: a handler returning an envelope with the zero status code;
the written status line is 200. -/
theorem c8_witness :
    JSON decodeAdd addResponse.toJson
      (fun w _ => (w, some (NewResponseWithCode 0 (some { Result := 7 })), none)) [] [] =
      Outcome.ok (WriteJSONCode [] 0 (JsonValue.jobj [("result", JsonValue.jnum 7)])) ∧
    statusWrites (WriteJSONCode [] 0 (JsonValue.jobj [("result", JsonValue.jnum 7)])) = [200] :=
  c8_status_code_passthrough decodeAdd addResponse.toJson
    (fun w _ => (w, some (NewResponseWithCode 0 (some { Result := 7 })), none)) [] []
    [] (NewResponseWithCode 0 (some { Result := 7 })) { Result := 7 } rfl rfl

/-- C9: request-envelope construction reads at most 2^20 characters of the
body: bytes past a 2^20-long prefix never change the result (they are
ignored, with no error — the construction is total), and in general the
result depends only on the first 2^20 characters. -/
theorem c9_body_read_bounded {T : Type} (dec : List Char → Option T)
    (body extra b : List Char) (hlen : 1 <<< 20 ≤ body.length) :
    NewRequest dec (body ++ extra) = NewRequest dec body ∧
    NewRequest dec b = NewRequest dec (b.take (1 <<< 20)) := by
  constructor
  · unfold NewRequest
    rw [List.take_append_of_le_length hlen]
  · unfold NewRequest
    rw [List.take_take, Nat.min_self]

/-- C9 witness: appending a byte after a 1 MiB body leaves the envelope
unchanged. -/
theorem c9_witness :
    1 <<< 20 ≤ (List.replicate (1 <<< 20) 'x').length ∧
    (NewRequest (fun _ => (none : Option addRequest))
        (List.replicate (1 <<< 20) 'x' ++ ['y']) =
      NewRequest (fun _ => none) (List.replicate (1 <<< 20) 'x') ∧
    NewRequest (fun _ => (none : Option addRequest)) ['z'] =
      NewRequest (fun _ => none) (['z'].take (1 <<< 20))) :=
  ⟨by rw [List.length_replicate],
    c9_body_read_bounded (fun _ => none) (List.replicate (1 <<< 20) 'x') ['y'] ['z']
      (by rw [List.length_replicate])⟩

/-- C10: when the handler returns a non-nil error, the adapter renders that
error and returns immediately; the returned response envelope — whatever it
is, even non-nil with a non-nil payload — never influences the output. -/
theorem c10_error_precedence {R W : Type} (dec : List Char → Option R)
    (toJ : W → JsonValue) (h : Handler R W) (w : List WriteEvent) (body : List Char)
    (w1 : List WriteEvent) (resp : Option (Response W)) (e : GoError)
    (hh : h w (NewRequest dec body) = (w1, resp, some e)) :
    JSON dec toJ h w body = Outcome.ok (WriteJSONError w1 e) := by
  simp [JSON, hh, handleResult]

/-- C10 witness: a handler returning both a full success envelope and an
error; only the error is rendered. -/
theorem c10_witness :
    JSON decodeAdd addResponse.toJson
      (fun w _ => (w, some (NewResponse (some { Result := 9 })),
        some (BadRequestError.toGoError { Message := "boom" }))) [] [] =
      Outcome.ok (WriteJSONError []
        (BadRequestError.toGoError { Message := "boom" })) :=
  c10_error_precedence decodeAdd addResponse.toJson
    (fun w _ => (w, some (NewResponse (some { Result := 9 })),
      some (BadRequestError.toGoError { Message := "boom" }))) [] []
    [] (some (NewResponse (some { Result := 9 })))
    (BadRequestError.toGoError { Message := "boom" }) rfl

end generichttp
